import Mathlib

/-!
Verification of the PPI Network Explorer backend (Prot_Map).

Shallow embedding of `backend/main.py`, `backend/database.py`,
`backend/ai_service.py` and `backend/models.py`.  Machine floats are
modelled as rationals, the SQLite tables as in-memory lists with the
unique-constraint behaviour of `models.py`, and the two external
collaborators (the Gemini classifier and the STRING interaction source)
as explicit outcome parameters, mirroring the try/except structure of
the source.
-/

namespace ProtMap

/-- Python's `str.upper` (ASCII model), written over the character
list so that it evaluates inside the kernel. -/
def pyUpper (s : String) : String :=
  ⟨s.data.map Char.toUpper⟩

/-- Whitespace as recognised by Python's `str.strip`. -/
def isPySpace (c : Char) : Bool :=
  c == ' ' || c == '\t' || c == '\n' || c == '\r' || c == '\x0b' || c == '\x0c'

/-- Python's `str.strip`: drop leading and trailing whitespace. -/
def pyStrip (s : String) : String :=
  ⟨(((s.data.dropWhile isPySpace).reverse).dropWhile isPySpace).reverse⟩

/-- One interaction record returned by the STRING collaborator
(`preferredName_A`, `preferredName_B`, `score`). -/
structure Interaction where
  preferredName_A : String
  preferredName_B : String
  score : ℚ
deriving DecidableEq, Repr

/-- One undirected weighted edge of the in-memory graph (`nx.Graph`). -/
structure Edge where
  a : String
  b : String
  weight : ℚ
deriving DecidableEq, Repr

/-- The in-memory graph: node list in discovery order plus edge list,
as maintained by `nx.Graph` in `analyze_network`. -/
structure Graph where
  nodes : List String
  edges : List Edge
deriving DecidableEq, Repr

/-- Whether an edge joins the same unordered node pair as `(a, b)`;
`nx.Graph.add_edge` overwrites such an edge instead of duplicating it. -/
def EdgeSame (a b : String) (e : Edge) : Prop :=
  (e.a = a ∧ e.b = b) ∨ (e.a = b ∧ e.b = a)

instance (a b : String) (e : Edge) : Decidable (EdgeSame a b e) :=
  inferInstanceAs (Decidable ((e.a = a ∧ e.b = b) ∨ (e.a = b ∧ e.b = a)))

/-- Add a node to the node list if not already present
(`nx.Graph` keeps first-insertion order and never duplicates nodes). -/
def insertNode (ns : List String) (v : String) : List String :=
  if v ∈ ns then ns else ns ++ [v]

/-- `G.add_edge(a, b, weight = w)`: inserts both endpoints, and either
overwrites the weight of the existing edge on the same unordered pair
(last write wins) or appends a fresh edge. -/
def addEdge (g : Graph) (a b : String) (w : ℚ) : Graph :=
  { nodes := insertNode (insertNode g.nodes a) b
    edges :=
      if ∃ e ∈ g.edges, EdgeSame a b e then
        g.edges.map (fun e => if EdgeSame a b e then { e with weight := w } else e)
      else
        g.edges ++ [⟨a, b, w⟩] }

/-- The graph-construction loop of `analyze_network` (main.py 357-368):
one `add_edge` per interaction record, labels used exactly as supplied. -/
def build_graph (interactions : List Interaction) : Graph :=
  interactions.foldl
    (fun g i => addEdge g i.preferredName_A i.preferredName_B i.score)
    ⟨[], []⟩

/-- Contribution of one edge to `G.degree(v)`: a self-loop at `v`
counts twice, any other incident edge once (networkx degree semantics). -/
def edgeDeg (v : String) (e : Edge) : Nat :=
  if e.a = v ∧ e.b = v then 2 else if e.a = v ∨ e.b = v then 1 else 0

/-- `G.degree(v)` for the embedded graph. -/
def degree (g : Graph) (v : String) : Nat :=
  (g.edges.map (edgeDeg v)).sum

/-- `nx.degree_centrality`: every node gets value 1 when the graph has
at most one node, otherwise `deg(v) / (n - 1)`; absent nodes read 0
(matching the `.get(node, 0)` read in `analyze_network`). -/
def degree_centrality (g : Graph) (v : String) : ℚ :=
  if g.nodes.length ≤ 1 then (if v ∈ g.nodes then 1 else 0)
  else (degree g v : ℚ) / ((g.nodes.length - 1 : ℕ) : ℚ)

/-- The endpoint opposite `v` on edge `e`, when `e` touches `v`. -/
def neighborOf (v : String) (e : Edge) : Option String :=
  if e.a = v then some e.b else if e.b = v then some e.a else none

/-- Neighbour list of `v` (other endpoints of incident edges). -/
def adjacency (g : Graph) (v : String) : List String :=
  g.edges.filterMap (neighborOf v)

/-- Breadth-first levels from a frontier, fuelled by the node count;
used to embed the shortest-path computations inside
`nx.betweenness_centrality`. -/
def bfsLevels (g : Graph) : Nat → List String → List String → List (List String)
  | 0, _, _ => []
  | Nat.succ fuel, visited, frontier =>
    if frontier.isEmpty then []
    else
      let next :=
        ((frontier.flatMap (adjacency g)).eraseDups).filter
          (fun v => !(visited.contains v))
      frontier :: bfsLevels g fuel (visited ++ next) next

/-- Breadth-first levels from source `s`: level `k` holds exactly the
nodes at shortest-path distance `k` from `s`. -/
def levelsFrom (g : Graph) (s : String) : List (List String) :=
  bfsLevels g (g.nodes.length + 1) [s] [s]

/-- Index of the level containing `v`, i.e. the shortest-path distance
from the BFS source (`none` when unreachable). -/
def distOf (ls : List (List String)) (v : String) : Option Nat :=
  ls.findIdx? (fun l => l.contains v)

/-- Propagate shortest-path counts level by level: the count of a node
in the next level is the sum of the counts of its predecessors. -/
def sigmaStep (g : Graph) : List (String × Nat) → List String → List (List String) → List (String × Nat)
  | tbl, _, [] => tbl
  | tbl, prev, l :: rest =>
    let newEntries := l.map (fun v =>
      (v, (prev.filter (fun u => (adjacency g u).contains v)).foldl
            (fun acc u => acc + ((tbl.lookup u).getD 0)) 0))
    sigmaStep g (tbl ++ newEntries) l rest

/-- Table of shortest-path counts from source `s`. -/
def sigmaTable (g : Graph) (s : String) : List (String × Nat) :=
  match levelsFrom g s with
  | [] => []
  | l0 :: rest => sigmaStep g (l0.map (fun v => (v, 1))) l0 rest

/-- Number of shortest paths from `s` to `v` (0 when unreachable). -/
def numPaths (g : Graph) (s v : String) : Nat :=
  ((sigmaTable g s).lookup v).getD 0

/-- Shortest-path distance between two nodes. -/
def distG (g : Graph) (s v : String) : Option Nat :=
  distOf (levelsFrom g s) v

/-- Fraction of shortest `s`-`t` paths that pass through `v`
(the pair dependency of Brandes' algorithm). -/
def pairDependency (g : Graph) (s t v : String) : ℚ :=
  match distG g s t, distG g s v, distG g v t with
  | some dst, some dsv, some dvt =>
    if dsv + dvt = dst then
      let sigma_st := numPaths g s t
      if sigma_st = 0 then 0
      else ((numPaths g s v * numPaths g v t : ℕ) : ℚ) / (sigma_st : ℚ)
    else 0
  | _, _, _ => 0

/-- `nx.betweenness_centrality` with its default normalization for
undirected graphs: 0 when the graph has at most two nodes, otherwise
the sum of pair dependencies over ordered pairs avoiding `v`, divided
by `(n - 1) * (n - 2)`. -/
def betweenness_centrality (g : Graph) (v : String) : ℚ :=
  let n := g.nodes.length
  if n ≤ 2 then 0
  else
    (g.nodes.foldl (fun acc s =>
      acc + g.nodes.foldl (fun acc2 t =>
        acc2 + (if s ≠ t ∧ s ≠ v ∧ t ≠ v then pairDependency g s t v else 0)) 0) 0)
      / (((n - 1) * (n - 2) : ℕ) : ℚ)

/-- Python's `round(x, ndigits)`: round half to even at the given
number of decimal digits. -/
def py_round (x : ℚ) (ndigits : Nat) : ℚ :=
  let m : ℚ := ((10 ^ ndigits : ℕ) : ℚ)
  let y := x * m
  let f : ℤ := ⌊y⌋
  let r := y - (f : ℚ)
  let n : ℤ :=
    if r < 1/2 then f
    else if 1/2 < r then f + 1
    else if f % 2 = 0 then f else f + 1
  (n : ℚ) / m

/-- The `node_to_module` dictionary of `analyze_network`: built by
enumerating the detected communities (later communities overwrite on
collision, as dict writes do), read back with `.get(node, 0)`. -/
def node_to_module (communities : List (List String)) (v : String) : Nat :=
  (((communities.enum.reverse).find? (fun p => p.2.contains v)).map (fun p => p.1)).getD 0

/-- A persisted gene row (`models.Gene`): unique symbol, category
foreign key, free-text description. -/
structure GeneRow where
  symbol : String
  category_id : Nat
  description : String
deriving DecidableEq, Repr

/-- A persisted category row (`models.Category`): id, unique name,
display color. -/
structure CategoryRow where
  id : Nat
  name : String
  color : String
deriving DecidableEq, Repr

/-- The knowledge cache: the `genes` and `categories` tables. -/
structure DB where
  genes : List GeneRow
  categories : List CategoryRow
deriving DecidableEq, Repr

/-- `get_gene_category` (main.py 85-99): the category name of the gene
with the uppercased symbol, or "Unknown" when the gene is absent or its
category reference dangles. -/
def get_gene_category (gene_symbol : String) (db : DB) : String :=
  match db.genes.find? (fun g => g.symbol == pyUpper gene_symbol) with
  | some g =>
    match db.categories.find? (fun c => c.id == g.category_id) with
    | some c => c.name
    | none => "Unknown"
  | none => "Unknown"

/-- `get_genes_by_symbols` (database.py): the rows whose symbol occurs
in the uppercased query list. -/
def get_genes_by_symbols (db : DB) (symbols : List String) : List GeneRow :=
  db.genes.filter (fun g => (symbols.map pyUpper).contains g.symbol)

/-- `get_categories_by_names` (database.py): the rows whose name occurs
in the query list. -/
def get_categories_by_names (db : DB) (names : List String) : List CategoryRow :=
  db.categories.filter (fun c => names.contains c.name)

/-- Input record for `bulk_create_genes`
(`{'symbol': ..., 'category_id': ..., 'description': ...}`). -/
structure GeneData where
  symbol : String
  category_id : Nat
  description : Option String
deriving DecidableEq, Repr

/-- Input record for `bulk_create_categories`
(`{'name': ..., 'color': ...}` with the color optional). -/
structure CategoryData where
  name : String
  color : Option String
deriving DecidableEq, Repr

/-- Whether committing this batch of gene rows violates the unique
`symbol` constraint of `models.Gene` (against the table or inside the
batch); this is the condition under which `db.commit()` raises. -/
def geneInsertFails (db : DB) (rows : List GeneRow) : Prop :=
  (∃ r ∈ rows, ∃ g ∈ db.genes, g.symbol = r.symbol) ∨ ¬ (rows.map (fun r => r.symbol)).Nodup

instance (db : DB) (rows : List GeneRow) : Decidable (geneInsertFails db rows) :=
  inferInstanceAs (Decidable ((∃ r ∈ rows, ∃ g ∈ db.genes, g.symbol = r.symbol)
    ∨ ¬ (rows.map (fun r : GeneRow => r.symbol)).Nodup))

/-- `bulk_create_genes` (database.py 80-125): uppercase the symbols,
default missing descriptions to "", commit all rows in one transaction;
on failure roll back and return `(0, unchanged db)`, on success return
the row count and the extended table. -/
def bulk_create_genes (db : DB) (genes_data : List GeneData) : Nat × DB :=
  let gene_objects : List GeneRow :=
    genes_data.map (fun d => ⟨pyUpper d.symbol, d.category_id, d.description.getD ""⟩)
  if geneInsertFails db gene_objects then (0, db)
  else (gene_objects.length, { db with genes := db.genes ++ gene_objects })

/-- Whether committing this batch of category rows violates the unique
`name` constraint of `models.Category`. -/
def categoryInsertFails (db : DB) (rows : List CategoryRow) : Prop :=
  (∃ r ∈ rows, ∃ c ∈ db.categories, c.name = r.name) ∨ ¬ (rows.map (fun r => r.name)).Nodup

instance (db : DB) (rows : List CategoryRow) : Decidable (categoryInsertFails db rows) :=
  inferInstanceAs (Decidable ((∃ r ∈ rows, ∃ c ∈ db.categories, c.name = r.name)
    ∨ ¬ (rows.map (fun r : CategoryRow => r.name)).Nodup))

/-- `bulk_create_categories` (database.py 202-242): default missing
colors to grey, assign fresh autoincrement ids, commit in one
transaction.  On failure the except branch rolls back and then falls
off the end of the function without a `return` statement, so Python
returns `None` — modelled as `none` — while the success path returns
the inserted count. -/
def bulk_create_categories (db : DB) (categories_data : List CategoryData) : Option Nat × DB :=
  let nextId := (db.categories.map (fun c => c.id)).foldl max 0 + 1
  let category_objects : List CategoryRow :=
    categories_data.enum.map (fun p => ⟨nextId + p.1, p.2.name, p.2.color.getD "#808080"⟩)
  if categoryInsertFails db category_objects then (none, db)
  else (some category_objects.length, { db with categories := db.categories ++ category_objects })

/-- The `{description, category}` pair produced by the classifier
collaborator (`ai_service.fetch_gene_info`). -/
structure GeneInfo where
  description : String
  category : String
deriving DecidableEq, Repr

/-- The fallback value of `fetch_gene_info`
(`ai_service.py 57-61`): description
"Gene <symbol> (auto-enrichment pending)", category "Unknown". -/
def default_response (gene_symbol : String) : GeneInfo :=
  { description := "Gene " ++ gene_symbol ++ " (auto-enrichment pending)"
    category := "Unknown" }

/-- Outcome of one raw Gemini call in the batch classification path:
either a failure mode caught by the handlers of `fetch_gene_info`
(network error, JSON that does not parse, JSON missing a required
field) or a parsed description/category pair. -/
inductive ApiOutcome where
  | networkError
  | malformedJson
  | missingFields
  | parsed (description category : String)
deriving DecidableEq, Repr

/-- Whether the raw call failed (any branch the except handlers see). -/
def ApiOutcome.isFail : ApiOutcome → Bool
  | .parsed _ _ => false
  | _ => true

/-- One character of Python's `str.title`: alphabetic characters are
uppercased at the start of an alphabetic run, lowercased inside it. -/
def titleChar (prevAlpha : Bool) (c : Char) : Char :=
  if c.isAlpha then (if prevAlpha then c.toLower else c.toUpper) else c

/-- Recursion for `pyTitle` over the character list. -/
def pyTitleGo : Bool → List Char → List Char
  | _, [] => []
  | prevAlpha, c :: cs => titleChar prevAlpha c :: pyTitleGo c.isAlpha cs

/-- Python's `str.title` (ASCII model). -/
def pyTitle (s : String) : String :=
  ⟨pyTitleGo false s.data⟩

/-- The category normalization of `fetch_gene_info`:
`category.strip().title()`. -/
def normalizeCategory (c : String) : String :=
  pyTitle (pyStrip c)

/-- The description truncation of `fetch_gene_info`: descriptions over
150 characters are cut to 147 characters plus "...". -/
def truncateDescription (d : String) : String :=
  if d.length > 150 then d.take 147 ++ "..." else d

/-- `fetch_gene_info` (ai_service.py 27-143): without an API key, or on
any failure of the call, return `default_response`; on success apply
the category normalization (the source applies it twice — the line is
duplicated) and the description truncation.  The function is total: no
error is ever propagated to the caller. -/
def fetch_gene_info (gene_symbol : String) (api_key : Option String) (outcome : ApiOutcome) : GeneInfo :=
  match api_key with
  | none => default_response gene_symbol
  | some _ =>
    match outcome with
    | .parsed d c =>
      let c1 := normalizeCategory c
      let c2 := normalizeCategory c1
      { description := truncateDescription d, category := c2 }
    | _ => default_response gene_symbol

/-- The parsed payload of the extended-clinical-detail variant
(`fetch_extended_details`). -/
structure ExtendedDetails where
  full_name : String
  function_summary : String
  disease_relevance : String
  known_drugs : List String
  clinical_significance : String
deriving DecidableEq, Repr

/-- Outcome of one raw Gemini call in the extended-clinical-detail
path. -/
inductive ExtOutcome where
  | apiError
  | malformedJson
  | missingField
  | parsed (d : ExtendedDetails)
deriving DecidableEq, Repr

/-- Whether the raw extended call failed. -/
def ExtOutcome.isFail : ExtOutcome → Bool
  | .parsed _ => false
  | _ => true

/-- `fetch_extended_details` (ai_service.py 181-310): raises
`ValueError` when no API key is configured; converts a JSON decode
failure into `Exception("Invalid JSON response from Gemini for ...")`
and re-raises every other failure — all failures surface to the caller
as errors.  On success an out-of-range `clinical_significance` is
replaced by "Moderate". -/
def fetch_extended_details (symbol : String) (api_key : Option String) (outcome : ExtOutcome) : Except String ExtendedDetails :=
  match api_key with
  | none => .error "GEMINI_API_KEY not found in environment"
  | some _ =>
    match outcome with
    | .parsed d =>
      .ok { d with
              clinical_significance :=
                if d.clinical_significance = "High" ∨ d.clinical_significance = "Moderate"
                    ∨ d.clinical_significance = "Low"
                then d.clinical_significance else "Moderate" }
    | .malformedJson => .error ("Invalid JSON response from Gemini for " ++ symbol)
    | _ => .error ("Error fetching extended details for " ++ symbol)

/-- One Python dict assignment `d[k] = v` on an association list:
overwrite the value at an existing key, else append. -/
def dictInsert {α : Type} (l : List (String × α)) (k : String) (v : α) : List (String × α) :=
  if l.any (fun p => p.1 == k) then
    l.map (fun p => if p.1 == k then (k, v) else p)
  else l ++ [(k, v)]

/-- `batch_fetch_genes` (ai_service.py 146-179): one classifier call
per symbol, results keyed by the uppercased symbol in a dict.  The
classifier itself is passed in as `classify` (it is `fetch_gene_info`
with the ambient key and per-call outcome applied). -/
def batch_fetch_genes (gene_symbols : List String) (classify : String → GeneInfo) : List (String × GeneInfo) :=
  gene_symbols.foldl (fun acc s => dictInsert acc (pyUpper s) (classify s)) []

/-- The `normalized_symbols` local of `enrich_missing_genes`. -/
def normalized_symbols (gene_symbols : List String) : List String :=
  gene_symbols.map pyUpper

/-- The `missing_symbols` local of `enrich_missing_genes`: normalized
symbols with no row in the gene table. -/
def missing_symbols (gene_symbols : List String) (db : DB) : List String :=
  let ns := normalized_symbols gene_symbols
  let existing := (get_genes_by_symbols db ns).map (fun g => g.symbol)
  ns.filter (fun s => !(existing.contains s))

/-- The `gene_info_map` local of `enrich_missing_genes`: classifier
results for the missing symbols. -/
def gene_info_map (gene_symbols : List String) (db : DB) (classify : String → GeneInfo) : List (String × GeneInfo) :=
  batch_fetch_genes (missing_symbols gene_symbols db) classify

/-- The `ai_categories` local of `enrich_missing_genes`: the distinct
categories among the classifier results (a Python set; only membership
is meaningful, the iteration order is unspecified). -/
def ai_categories (gene_symbols : List String) (db : DB) (classify : String → GeneInfo) : List String :=
  ((gene_info_map gene_symbols db classify).map (fun p => p.2.category)).eraseDups

/-- The `new_categories` local of `enrich_missing_genes`: classifier
categories with no row in the category table. -/
def new_categories (gene_symbols : List String) (db : DB) (classify : String → GeneInfo) : List String :=
  let ai := ai_categories gene_symbols db classify
  let existingNames := (get_categories_by_names db ai).map (fun c => c.name)
  ai.filter (fun c => !(existingNames.contains c))

/-- One pending `(symbol, category, description)` tuple of the review
payload. -/
structure PendingGene where
  symbol : String
  category : String
  description : String
deriving DecidableEq, Repr

/-- The review payload returned by `enrich_missing_genes` when new
categories are detected. -/
structure ReviewData where
  new_categories : List String
  pending_genes : List PendingGene
deriving DecidableEq, Repr

/-- `enrich_missing_genes` (main.py 102-198).  Returns the Python
return value (`none` = proceed, `some review` = pause for approval),
the resulting database state, and the list of symbols for which a
classifier call was dispatched. -/
def enrich_missing_genes (gene_symbols : List String) (db : DB) (classify : String → GeneInfo) : Option ReviewData × DB × List String :=
  let missing := missing_symbols gene_symbols db
  if missing.isEmpty then (none, db, [])
  else
    let infoMap := gene_info_map gene_symbols db classify
    let newCats := new_categories gene_symbols db classify
    if newCats.isEmpty then
      let existingCats := get_categories_by_names db (ai_categories gene_symbols db classify)
      let genes_to_insert : List GeneData :=
        infoMap.map (fun p =>
          { symbol := p.1
            category_id := ((existingCats.find? (fun c => c.name == p.2.category)).map (fun c => c.id)).getD 0
            description := some p.2.description })
      if genes_to_insert.isEmpty then (none, db, missing)
      else (none, (bulk_create_genes db genes_to_insert).2, missing)
    else
      (some { new_categories := newCats
              pending_genes := infoMap.map (fun p => ⟨p.1, p.2.category, p.2.description⟩) },
       db, missing)

/-- The Cytoscape node payload built in `analyze_network`
(main.py 407-421). -/
structure NodeDatum where
  id : String
  label : String
  degree : ℚ
  betweenness : ℚ
  module : Nat
  node_degree : Nat
  category : String
deriving DecidableEq, Repr

/-- The Cytoscape edge payload built in `analyze_network`
(main.py 424-432). -/
structure EdgeDatum where
  source : String
  target : String
  score : ℚ
deriving DecidableEq, Repr

/-- One element of the `elements` list (a node or an edge). -/
inductive Element where
  | node (d : NodeDatum)
  | edge (d : EdgeDatum)
deriving DecidableEq, Repr

/-- One entry of the `top_hubs` statistic. -/
structure HubEntry where
  gene : String
  degree : Nat
  centrality : ℚ
deriving DecidableEq, Repr

/-- One entry of the `top_bottlenecks` statistic. -/
structure BottleneckEntry where
  gene : String
  betweenness : ℚ
deriving DecidableEq, Repr

/-- The `stats` dictionary of the analysis result.  The empty-network
early return omits the `genes_found` / `genes_not_found` keys, hence
the `Option`. -/
structure Stats where
  total_nodes : Nat
  total_edges : Nat
  top_hubs : List HubEntry
  top_bottlenecks : List BottleneckEntry
  modules_detected : Nat
  genes_found : Option Nat
  genes_not_found : Option Nat
deriving DecidableEq, Repr

/-- The full return value of `analyze_network`. -/
structure AnalysisResult where
  elements : List Element
  stats : Stats
  genes_found : Option (List String)
  genes_not_found : Option (List String)
deriving DecidableEq, Repr

/-- `analyze_network` (main.py 325-467).  The call to
`nx.algorithms.community.greedy_modularity_communities` sits inside a
`try`; it is modelled as the parameter `detect`, which either yields
the community list or raises (`Except.error`); the bare `except`
branch sets `node_to_module = {node: 0 for node in G.nodes()}` and
`communities = []`.  An empty interaction list short-circuits to the
empty result before any centrality or community computation. -/
def analyze_network (interactions : List Interaction) (genes_found genes_not_found : List String) (db : DB) (detect : Graph → Except Unit (List (List String))) : AnalysisResult :=
  if interactions.isEmpty then
    { elements := []
      stats := { total_nodes := 0, total_edges := 0, top_hubs := [], top_bottlenecks := []
                 modules_detected := 0, genes_found := none, genes_not_found := none }
      genes_found := none
      genes_not_found := none }
  else
    let G := build_graph interactions
    let communities := match detect G with
      | .ok cs => cs
      | .error _ => []
    let nodeElements := G.nodes.map (fun v => Element.node
      { id := v
        label := v
        degree := py_round (degree_centrality G v) 4
        betweenness := py_round (betweenness_centrality G v) 4
        module := node_to_module communities v
        node_degree := degree G v
        category := get_gene_category v db })
    let edgeElements := G.edges.map (fun e => Element.edge
      { source := e.a, target := e.b, score := py_round e.weight 3 })
    let top_hubs :=
      ((G.nodes.map (fun v => HubEntry.mk v (degree G v) (degree_centrality G v))).mergeSort
        (fun x y => x.degree ≥ y.degree)).take 5
    let top_bottlenecks :=
      ((G.nodes.map (fun v => BottleneckEntry.mk v (py_round (betweenness_centrality G v) 4))).mergeSort
        (fun x y => x.betweenness ≥ y.betweenness)).take 5
    { elements := nodeElements ++ edgeElements
      stats := { total_nodes := G.nodes.length
                 total_edges := G.edges.length
                 top_hubs := top_hubs
                 top_bottlenecks := top_bottlenecks
                 modules_detected := communities.length
                 genes_found := some genes_found.length
                 genes_not_found := some genes_not_found.length }
      genes_found := some genes_found
      genes_not_found := some genes_not_found }

/-- The `cleaned_genes` local of `fetch_string_interactions`
(main.py 220): keep the symbols with non-blank strip, stripped and
uppercased. -/
def cleaned_genes (genes : List String) : List String :=
  (genes.filter (fun g => !(pyStrip g == ""))).map (fun g => pyUpper (pyStrip g))

/-- The successful payload of `fetch_string_interactions`. -/
structure StringFetchResult where
  interactions : List Interaction
  genes_found : List String
  genes_not_found : List String
deriving DecidableEq, Repr

/-- `fetch_string_interactions` (main.py 205-265).  The STRING HTTP
call is the parameter `response` (`Except.error` = request exception,
surfaced as the 503 "STRING DB API error").  The `ValueError` for an
empty cleaned gene list is raised before the request; an empty
interaction list is returned as zero interactions with every gene
"not found", not as an error. -/
def fetch_string_interactions (genes : List String) (response : Except Unit (List Interaction)) : Except String StringFetchResult :=
  let cleaned := cleaned_genes genes
  if cleaned.isEmpty then .error "No valid genes provided"
  else
    match response with
    | .error _ => .error "STRING DB API error"
    | .ok interactions =>
      let genes_in_network :=
        interactions.flatMap (fun i => [pyUpper i.preferredName_A, pyUpper i.preferredName_B])
      let found := cleaned.filter (fun g => genes_in_network.contains g)
      let notFound := cleaned.filter (fun g => !(genes_in_network.contains g))
      if interactions.isEmpty then .ok ⟨[], [], cleaned⟩
      else .ok ⟨interactions, found, notFound⟩

/-- The body of a successful `/analyze` response: either the
202-review payload or the full analysis. -/
inductive EndpointValue where
  | review_required (new_categories : List String) (pending_genes : List PendingGene)
  | analysis (result : AnalysisResult)
deriving Repr

/-- The observable effect of one `/analyze` request: the HTTP response
(error detail string on failure), the resulting database state, and
the classifier calls dispatched while handling it. -/
structure PipelineOutcome where
  response : Except String EndpointValue
  db : DB
  classifier_calls : List String
deriving Repr

/-- `analyze_ppi_network`, the `/analyze` endpoint (main.py 482-536):
enrichment first (it can write to the cache and dispatch classifier
calls), then the review short-circuit, then the STRING fetch (whose
gene-list validation raises `ValueError` → HTTP 400), then
`analyze_network`.  The confidence threshold only shapes the HTTP
request to STRING and is absorbed into the `string_response`
parameter. -/
def analyze_ppi_network (genes : List String) (db : DB) (classify : String → GeneInfo) (string_response : Except Unit (List Interaction)) (detect : Graph → Except Unit (List (List String))) : PipelineOutcome :=
  let enriched := enrich_missing_genes genes db classify
  match enriched.1 with
  | some rd =>
    { response := .ok (.review_required rd.new_categories rd.pending_genes)
      db := enriched.2.1
      classifier_calls := enriched.2.2 }
  | none =>
    match fetch_string_interactions genes string_response with
    | .error msg =>
      { response := .error msg, db := enriched.2.1, classifier_calls := enriched.2.2 }
    | .ok fr =>
      { response := .ok (.analysis (analyze_network fr.interactions fr.genes_found fr.genes_not_found enriched.2.1 detect))
        db := enriched.2.1
        classifier_calls := enriched.2.2 }

/-! ### Structural invariants of the constructed graph -/

/-- Well-formedness maintained by `nx.Graph`: nodes are not duplicated,
edge endpoints are registered nodes, and no two edges join the same
unordered node pair. -/
structure GraphWF (g : Graph) : Prop where
  nodup : g.nodes.Nodup
  ends : ∀ e ∈ g.edges, e.a ∈ g.nodes ∧ e.b ∈ g.nodes
  distinct : g.edges.Pairwise (fun e₁ e₂ => ¬ EdgeSame e₁.a e₁.b e₂)

/-- No edge is a self-loop. -/
def NoLoops (g : Graph) : Prop := ∀ e ∈ g.edges, e.a ≠ e.b

/-- Either no node has been discovered yet, or two distinct ones have. -/
def TwoNodes (g : Graph) : Prop :=
  g.nodes = [] ∨ ∃ x y, x ≠ y ∧ x ∈ g.nodes ∧ y ∈ g.nodes

theorem mem_insertNode (ns : List String) (v w : String) :
    w ∈ insertNode ns v ↔ w ∈ ns ∨ w = v := by
  unfold insertNode
  split
  · next h =>
    constructor
    · exact Or.inl
    · rintro (hw | rfl)
      · exact hw
      · exact h
  · simp

theorem insertNode_nodup {ns : List String} {v : String} (h : ns.Nodup) :
    (insertNode ns v).Nodup := by
  unfold insertNode
  split
  · exact h
  · next hv => simp [List.nodup_append, h, hv]

theorem mem_addEdge_nodes {g : Graph} {a b v : String} {w : ℚ} (h : v ∈ g.nodes) :
    v ∈ (addEdge g a b w).nodes := by
  show v ∈ insertNode (insertNode g.nodes a) b
  exact (mem_insertNode _ _ _).2 (Or.inl ((mem_insertNode _ _ _).2 (Or.inl h)))

theorem a_mem_addEdge_nodes (g : Graph) (a b : String) (w : ℚ) :
    a ∈ (addEdge g a b w).nodes :=
  (mem_insertNode _ _ _).2 (Or.inl ((mem_insertNode _ _ _).2 (Or.inr rfl)))

theorem b_mem_addEdge_nodes (g : Graph) (a b : String) (w : ℚ) :
    b ∈ (addEdge g a b w).nodes :=
  (mem_insertNode _ _ _).2 (Or.inr rfl)

theorem weight_update_a (a b : String) (w : ℚ) (e : Edge) :
    (if EdgeSame a b e then { e with weight := w } else e).a = e.a := by
  split <;> rfl

theorem weight_update_b (a b : String) (w : ℚ) (e : Edge) :
    (if EdgeSame a b e then { e with weight := w } else e).b = e.b := by
  split <;> rfl

theorem addEdge_wf {g : Graph} {a b : String} {w : ℚ} (h : GraphWF g) :
    GraphWF (addEdge g a b w) := by
  constructor
  · exact insertNode_nodup (insertNode_nodup h.nodup)
  · intro e he
    show e.a ∈ (addEdge g a b w).nodes ∧ e.b ∈ (addEdge g a b w).nodes
    have hmem : e ∈ (addEdge g a b w).edges := he
    unfold addEdge at hmem
    simp only at hmem
    split at hmem
    · obtain ⟨e₀, he₀, rfl⟩ := List.mem_map.1 hmem
      rw [weight_update_a, weight_update_b]
      exact ⟨mem_addEdge_nodes (h.ends e₀ he₀).1, mem_addEdge_nodes (h.ends e₀ he₀).2⟩
    · rcases List.mem_append.1 hmem with h₀ | h₁
      · exact ⟨mem_addEdge_nodes (h.ends e h₀).1, mem_addEdge_nodes (h.ends e h₀).2⟩
      · have : e = ⟨a, b, w⟩ := by simpa using h₁
        subst this
        exact ⟨a_mem_addEdge_nodes g a b w, b_mem_addEdge_nodes g a b w⟩
  · show ((addEdge g a b w).edges).Pairwise _
    unfold addEdge
    simp only
    split
    · rw [List.pairwise_map]
      refine h.distinct.imp ?_
      intro e₁ e₂ hne
      rw [weight_update_a, weight_update_b]
      intro hsame
      apply hne
      rcases hsame with ⟨h₁, h₂⟩ | ⟨h₁, h₂⟩
      · rw [weight_update_a] at h₁
        rw [weight_update_b] at h₂
        exact Or.inl ⟨h₁, h₂⟩
      · rw [weight_update_a] at h₁
        rw [weight_update_b] at h₂
        exact Or.inr ⟨h₁, h₂⟩
    · next hno =>
      rw [List.pairwise_append]
      refine ⟨h.distinct, List.pairwise_singleton _ _, ?_⟩
      intro e he e' he'
      have : e' = ⟨a, b, w⟩ := by simpa using he'
      subst this
      intro hsame
      apply hno
      rcases hsame with ⟨h₁, h₂⟩ | ⟨h₁, h₂⟩
      · exact ⟨e, he, Or.inl ⟨h₁.symm, h₂.symm⟩⟩
      · exact ⟨e, he, Or.inr ⟨h₂.symm, h₁.symm⟩⟩

theorem addEdge_noloops {g : Graph} {a b : String} {w : ℚ} (h : NoLoops g) (hab : a ≠ b) :
    NoLoops (addEdge g a b w) := by
  intro e he
  have hmem : e ∈ (addEdge g a b w).edges := he
  unfold addEdge at hmem
  simp only at hmem
  split at hmem
  · obtain ⟨e₀, he₀, rfl⟩ := List.mem_map.1 hmem
    rw [weight_update_a, weight_update_b]
    exact h e₀ he₀
  · rcases List.mem_append.1 hmem with h₀ | h₁
    · exact h e h₀
    · have : e = ⟨a, b, w⟩ := by simpa using h₁
      subst this
      exact hab

theorem addEdge_twoNodes {g : Graph} {a b : String} {w : ℚ} (hab : a ≠ b) :
    TwoNodes (addEdge g a b w) :=
  Or.inr ⟨a, b, hab, a_mem_addEdge_nodes g a b w, b_mem_addEdge_nodes g a b w⟩

theorem foldl_build_wf (rs : List Interaction) :
    ∀ g : Graph, GraphWF g →
      GraphWF (rs.foldl (fun g i => addEdge g i.preferredName_A i.preferredName_B i.score) g) := by
  induction rs with
  | nil => intro g h; exact h
  | cons r rs ih => intro g h; exact ih _ (addEdge_wf h)

theorem build_graph_wf (rs : List Interaction) : GraphWF (build_graph rs) :=
  foldl_build_wf rs ⟨[], []⟩ ⟨List.nodup_nil, (by intro e he; cases he), List.Pairwise.nil⟩

theorem foldl_build_noloops (rs : List Interaction)
    (hl : ∀ r ∈ rs, r.preferredName_A ≠ r.preferredName_B) :
    ∀ g : Graph, NoLoops g →
      NoLoops (rs.foldl (fun g i => addEdge g i.preferredName_A i.preferredName_B i.score) g) := by
  induction rs with
  | nil => intro g h; exact h
  | cons r rs ih =>
    intro g h
    exact ih (fun r' hr' => hl r' (List.mem_cons_of_mem r hr')) _
      (addEdge_noloops h (hl r (List.mem_cons_self r rs)))

theorem build_graph_noloops (rs : List Interaction)
    (hl : ∀ r ∈ rs, r.preferredName_A ≠ r.preferredName_B) :
    NoLoops (build_graph rs) :=
  foldl_build_noloops rs hl ⟨[], []⟩ (by intro e he; cases he)

theorem foldl_build_nodes_mono (rs : List Interaction) {v : String} :
    ∀ g : Graph, v ∈ g.nodes →
      v ∈ (rs.foldl (fun g i => addEdge g i.preferredName_A i.preferredName_B i.score) g).nodes := by
  induction rs with
  | nil => intro g h; exact h
  | cons r rs ih => intro g h; exact ih _ (mem_addEdge_nodes h)

theorem build_graph_twoNodes (rs : List Interaction)
    (hl : ∀ r ∈ rs, r.preferredName_A ≠ r.preferredName_B) :
    TwoNodes (build_graph rs) := by
  cases rs with
  | nil => exact Or.inl rfl
  | cons r rs =>
    have hab : r.preferredName_A ≠ r.preferredName_B := hl r (List.mem_cons_self r rs)
    rcases addEdge_twoNodes (g := ⟨[], []⟩) (w := r.score) hab with h | ⟨x, y, hxy, hx, hy⟩
    · rw [show (addEdge ⟨[], []⟩ r.preferredName_A r.preferredName_B r.score).nodes
          = [r.preferredName_A, r.preferredName_B] from by
            simp [addEdge, insertNode, hab.symm]] at h
      cases h
    · exact Or.inr ⟨x, y, hxy, foldl_build_nodes_mono rs _ hx, foldl_build_nodes_mono rs _ hy⟩

theorem two_le_length_of_two_mem {ns : List String} {x y : String}
    (hnd : ns.Nodup) (hxy : x ≠ y) (hx : x ∈ ns) (hy : y ∈ ns) : 2 ≤ ns.length := by
  have hsub : ({x, y} : Finset String) ⊆ ns.toFinset := by
    intro z hz
    rcases Finset.mem_insert.1 hz with rfl | hz
    · exact List.mem_toFinset.2 hx
    · rw [Finset.mem_singleton] at hz
      subst hz
      exact List.mem_toFinset.2 hy
  calc 2 = ({x, y} : Finset String).card := (Finset.card_pair hxy).symm
    _ ≤ ns.toFinset.card := Finset.card_le_card hsub
    _ = ns.length := List.toFinset_card_of_nodup hnd

theorem neighborOf_eq_some {v x : String} {e : Edge} (h : neighborOf v e = some x) :
    (e.a = v ∧ e.b = x) ∨ (e.b = v ∧ e.a = x) := by
  unfold neighborOf at h
  split at h
  · exact Or.inl ⟨by assumption, Option.some.inj h⟩
  · split at h
    · exact Or.inr ⟨by assumption, Option.some.inj h⟩
    · cases h

theorem edgeSame_of_neighborOf {v x : String} {e e' : Edge}
    (he : neighborOf v e = some x) (he' : neighborOf v e' = some x) :
    EdgeSame e.a e.b e' := by
  rcases neighborOf_eq_some he with ⟨h1, h2⟩ | ⟨h1, h2⟩ <;>
    rcases neighborOf_eq_some he' with ⟨h1', h2'⟩ | ⟨h1', h2'⟩
  · exact Or.inl ⟨h1'.trans h1.symm, h2'.trans h2.symm⟩
  · exact Or.inr ⟨h2'.trans h2.symm, h1'.trans h1.symm⟩
  · exact Or.inr ⟨h1'.trans h1.symm, h2'.trans h2.symm⟩
  · exact Or.inl ⟨h2'.trans h2.symm, h1'.trans h1.symm⟩

theorem filterMap_neighborOf_nodup (v : String) :
    ∀ es : List Edge, es.Pairwise (fun e₁ e₂ => ¬ EdgeSame e₁.a e₁.b e₂) →
      (es.filterMap (neighborOf v)).Nodup := by
  intro es
  induction es with
  | nil => intro _; simp
  | cons e es ih =>
    intro hpw
    rw [List.pairwise_cons] at hpw
    rw [List.filterMap_cons]
    cases hne : neighborOf v e with
    | none => exact ih hpw.2
    | some x =>
      refine List.Nodup.cons ?_ (ih hpw.2)
      intro hx
      obtain ⟨e', he', hxe'⟩ := List.mem_filterMap.1 hx
      exact hpw.1 e' he' (edgeSame_of_neighborOf hne hxe')

theorem adjacency_nodup {g : Graph} (h : GraphWF g) (v : String) :
    (adjacency g v).Nodup :=
  filterMap_neighborOf_nodup v g.edges h.distinct

theorem adjacency_subset {g : Graph} (h : GraphWF g) (v : String) :
    ∀ x ∈ adjacency g v, x ∈ g.nodes := by
  intro x hx
  obtain ⟨e, he, hxe⟩ := List.mem_filterMap.1 hx
  rcases neighborOf_eq_some hxe with ⟨_, rfl⟩ | ⟨_, rfl⟩
  · exact (h.ends e he).2
  · exact (h.ends e he).1

theorem self_not_mem_adjacency {g : Graph} (h : NoLoops g) (v : String) :
    v ∉ adjacency g v := by
  intro hv
  obtain ⟨e, he, hve⟩ := List.mem_filterMap.1 hv
  rcases neighborOf_eq_some hve with ⟨h1, h2⟩ | ⟨h1, h2⟩
  · exact h e he (h1.trans h2.symm)
  · exact h e he (h2.trans h1.symm)

theorem degree_eq_adjacency_length {g : Graph} (h : NoLoops g) (v : String) :
    degree g v = (adjacency g v).length := by
  unfold degree adjacency
  have : ∀ es : List Edge, (∀ e ∈ es, e.a ≠ e.b) →
      (es.map (edgeDeg v)).sum = (es.filterMap (neighborOf v)).length := by
    intro es
    induction es with
    | nil => intro _; rfl
    | cons e es ih =>
      intro hnl
      have hrest := ih (fun e' he' => hnl e' (List.mem_cons_of_mem e he'))
      have hee : e.a ≠ e.b := hnl e (List.mem_cons_self e es)
      rw [List.map_cons, List.sum_cons, List.filterMap_cons, hrest]
      unfold edgeDeg neighborOf
      by_cases ha : e.a = v
      · have hb : e.b ≠ v := fun hb => hee (ha.trans hb.symm)
        rw [if_neg (by rintro ⟨_, h2⟩; exact hb h2), if_pos (Or.inl ha), if_pos ha]
        simp [Nat.add_comm]
      · by_cases hb : e.b = v
        · rw [if_neg (by rintro ⟨h1, _⟩; exact ha h1), if_pos (Or.inr hb), if_neg ha, if_pos hb]
          simp [Nat.add_comm]
        · rw [if_neg (by rintro ⟨h1, _⟩; exact ha h1),
            if_neg (by rintro (h1 | h2); exacts [ha h1, hb h2]), if_neg ha, if_neg hb]
          simp
  exact this g.edges h

theorem degree_le_card {g : Graph} (hw : GraphWF g) (hnl : NoLoops g)
    {v : String} (hv : v ∈ g.nodes) : degree g v ≤ g.nodes.length - 1 := by
  rw [degree_eq_adjacency_length hnl]
  have hnd := adjacency_nodup hw v
  have hsub : (adjacency g v).toFinset ⊆ g.nodes.toFinset.erase v := by
    intro x hx
    have hx' := List.mem_toFinset.1 hx
    rw [Finset.mem_erase]
    refine ⟨?_, List.mem_toFinset.2 (adjacency_subset hw v x hx')⟩
    rintro rfl
    exact self_not_mem_adjacency hnl x hx'
  calc (adjacency g v).length = (adjacency g v).toFinset.card :=
        (List.toFinset_card_of_nodup hnd).symm
    _ ≤ (g.nodes.toFinset.erase v).card := Finset.card_le_card hsub
    _ = g.nodes.toFinset.card - 1 := Finset.card_erase_of_mem (List.mem_toFinset.2 hv)
    _ = g.nodes.length - 1 := by rw [List.toFinset_card_of_nodup hw.nodup]

/-- The set of labels appearing in any interaction record, exactly as
they occur in the records. -/
def record_labels (rs : List Interaction) : Finset String :=
  (rs.flatMap (fun r => [r.preferredName_A, r.preferredName_B])).toFinset

/-- Modelled from the spec: the set of distinct normalized labels
("trim, uppercase") appearing in any record — the node set the spec
asserts for the produced graph. -/
def spec_normalized_labels (rs : List Interaction) : Finset String :=
  (rs.flatMap (fun r => [pyUpper (pyStrip r.preferredName_A), pyUpper (pyStrip r.preferredName_B)])).toFinset

theorem insertNode_toFinset (ns : List String) (v : String) :
    (insertNode ns v).toFinset = insert v ns.toFinset := by
  unfold insertNode
  split
  · next h => exact (Finset.insert_eq_self.2 (List.mem_toFinset.2 h)).symm
  · ext x
    simp [or_comm]

theorem foldl_build_nodes_toFinset (rs : List Interaction) :
    ∀ g : Graph,
      ((rs.foldl (fun g i => addEdge g i.preferredName_A i.preferredName_B i.score) g).nodes).toFinset
        = g.nodes.toFinset ∪ record_labels rs := by
  induction rs with
  | nil => intro g; simp [record_labels]
  | cons r rs ih =>
    intro g
    rw [List.foldl_cons, ih]
    rw [show (addEdge g r.preferredName_A r.preferredName_B r.score).nodes
        = insertNode (insertNode g.nodes r.preferredName_A) r.preferredName_B from rfl,
      insertNode_toFinset, insertNode_toFinset]
    rw [show record_labels (r :: rs)
        = ([r.preferredName_A, r.preferredName_B]).toFinset ∪ record_labels rs from by
          unfold record_labels
          rw [List.flatMap_cons, List.toFinset_append]]
    ext x
    simp only [List.toFinset_cons, List.toFinset_nil, Finset.mem_union, Finset.mem_insert,
      Finset.not_mem_empty, or_false]
    tauto

/-- The review branch of `enrich_missing_genes`: when the classifier
produced at least one category unknown to the cache, the function
returns exactly the review payload, leaves the database untouched, and
reports the missing symbols as the dispatched classifier calls. -/
theorem enrich_review_branch (gene_symbols : List String) (db : DB)
    (classify : String → GeneInfo)
    (h : new_categories gene_symbols db classify ≠ []) :
    enrich_missing_genes gene_symbols db classify =
      (some ⟨new_categories gene_symbols db classify,
             (gene_info_map gene_symbols db classify).map
               (fun p => ⟨p.1, p.2.category, p.2.description⟩)⟩,
       db, missing_symbols gene_symbols db) := by
  have hm : missing_symbols gene_symbols db ≠ [] := by
    intro hm
    apply h
    unfold new_categories ai_categories gene_info_map
    rw [hm]
    rfl
  have h1 : (missing_symbols gene_symbols db).isEmpty = false := by
    rwa [List.isEmpty_eq_false]
  have h2 : (new_categories gene_symbols db classify).isEmpty = false := by
    rwa [List.isEmpty_eq_false]
  simp [enrich_missing_genes, h1, h2]

/-! ### Claims -/

/-- Claim C1, counterexample.  On the single interaction A-B, when the
community-detection call raises, the fallback does not put every node
in its own module with module count |V| = 2: it reports 0 modules and
assigns module id 0 to both nodes (one shared module). -/
theorem community_fallback_counterexample :
    (analyze_network [⟨"A", "B", (1:ℚ)/2⟩] ["A", "B"] [] ⟨[], []⟩
        (fun _ => Except.error ())).stats.modules_detected = 0 ∧
    (build_graph [⟨"A", "B", (1:ℚ)/2⟩]).nodes.length = 2 ∧
    (analyze_network [⟨"A", "B", (1:ℚ)/2⟩] ["A", "B"] [] ⟨[], []⟩
        (fun _ => Except.error ())).stats.modules_detected ≠
      (build_graph [⟨"A", "B", (1:ℚ)/2⟩]).nodes.length ∧
    node_to_module ([] : List (List String)) "A" = 0 ∧
    node_to_module ([] : List (List String)) "B" = 0 :=
  ⟨rfl, rfl, by decide, rfl, rfl⟩

/-- Claim C1, amended.  When the community-detection call raises on a
nonempty interaction list, `analyze_network` still returns (no error):
the fallback assigns module id 0 to every node — a single shared
module, not one module per node — and reports 0 detected modules, not
|V|. -/
theorem community_fallback_amended (interactions : List Interaction)
    (genes_found genes_not_found : List String) (db : DB)
    (detect : Graph → Except Unit (List (List String)))
    (hne : interactions ≠ [])
    (herr : detect (build_graph interactions) = Except.error ()) :
    (analyze_network interactions genes_found genes_not_found db detect).stats.modules_detected = 0 ∧
    ∀ d : NodeDatum,
      Element.node d ∈ (analyze_network interactions genes_found genes_not_found db detect).elements →
      d.module = 0 := by
  have hI : interactions.isEmpty = false := List.isEmpty_eq_false.mpr hne
  unfold analyze_network
  rw [hI]
  simp only [Bool.false_eq_true, if_false, herr]
  constructor
  · rfl
  · intro d hd
    rcases List.mem_append.1 hd with hn | he
    · obtain ⟨v, hv, hveq⟩ := List.mem_map.1 hn
      cases hveq
      rfl
    · obtain ⟨e, he', hveq⟩ := List.mem_map.1 he
      cases hveq

/-- Claim C1, witness for the amended theorem. -/
theorem community_fallback_amended_witness :
    ([⟨"A", "B", (1:ℚ)/2⟩] : List Interaction) ≠ [] ∧
    (fun _ => Except.error () : Graph → Except Unit (List (List String)))
        (build_graph [⟨"A", "B", (1:ℚ)/2⟩]) = Except.error () ∧
    (analyze_network [⟨"A", "B", (1:ℚ)/2⟩] ["A", "B"] [] ⟨[], []⟩
        (fun _ => Except.error ())).stats.modules_detected = 0 :=
  ⟨by decide, rfl,
   (community_fallback_amended [⟨"A", "B", (1:ℚ)/2⟩] ["A", "B"] [] ⟨[], []⟩
      (fun _ => Except.error ()) (by decide) rfl).1⟩

/-- Claim C2, counterexample.  The graph-construction loop uses record
labels exactly as supplied — no trim, no uppercase — so for the record
(" tp53", "BRCA1") the node set differs from the set of normalized
labels the claim asserts. -/
theorem node_set_normalization_counterexample :
    (build_graph [⟨" tp53", "BRCA1", 900⟩]).nodes.toFinset ≠
      spec_normalized_labels [⟨" tp53", "BRCA1", 900⟩] := by
  decide

/-- Claim C2, amended.  The node set of the produced graph equals the
set of distinct labels appearing in any record exactly as supplied
(raw, not normalized), and it is independent of record order. -/
theorem node_set_eq_raw_labels :
    (∀ rs : List Interaction, (build_graph rs).nodes.toFinset = record_labels rs) ∧
    (∀ rs rs' : List Interaction, rs.Perm rs' →
      (build_graph rs).nodes.toFinset = (build_graph rs').nodes.toFinset) := by
  have hmain : ∀ rs : List Interaction, (build_graph rs).nodes.toFinset = record_labels rs := by
    intro rs
    have := foldl_build_nodes_toFinset rs ⟨[], []⟩
    simpa [build_graph] using this
  refine ⟨hmain, ?_⟩
  intro rs rs' hperm
  rw [hmain, hmain]
  exact List.toFinset_eq_of_perm _ _ (hperm.flatMap_right _)

/-- Claim C2, witness for the order-independence part of the amended
theorem. -/
theorem node_set_eq_raw_labels_witness :
    ([⟨"A", "B", 1⟩, ⟨"C", "D", 2⟩] : List Interaction).Perm [⟨"C", "D", 2⟩, ⟨"A", "B", 1⟩] ∧
    (build_graph [⟨"A", "B", 1⟩, ⟨"C", "D", 2⟩]).nodes.toFinset =
      (build_graph [⟨"C", "D", 2⟩, ⟨"A", "B", 1⟩]).nodes.toFinset :=
  ⟨by decide, node_set_eq_raw_labels.2 _ _ (by decide)⟩

/-- Claim C3.  Both failing bulk writes roll the batch back (the
database is unchanged), but only `bulk_create_genes` returns the count
0 the spec promises: the except branch of `bulk_create_categories` has
no return statement, so the category path yields `None` (no count) on
failure — the code contradicts its own `-> int` annotation and
docstring.  First conjunct: a conflicting gene batch returns `(0, db)`.
Second conjunct: a conflicting category batch returns `(none, db)`. -/
theorem bulk_write_failure_rollback :
    bulk_create_genes ⟨[⟨"TP53", 1, "d"⟩], [⟨1, "Kinase", "#808080"⟩]⟩ [⟨"TP53", 1, some "x"⟩] =
      (0, ⟨[⟨"TP53", 1, "d"⟩], [⟨1, "Kinase", "#808080"⟩]⟩) ∧
    bulk_create_categories ⟨[], [⟨1, "Kinase", "#808080"⟩]⟩ [⟨"Kinase", none⟩] =
      (none, ⟨[], [⟨1, "Kinase", "#808080"⟩]⟩) := by
  constructor <;> decide

/-- Claim C4, counterexample.  Self-loops do alter degree centrality
(networkx counts them twice): a lone self-loop yields a one-node graph
whose centrality is 1, not the 0 the claim asserts for |V| ≤ 1, and a
self-loop added to the edge A-B pushes the centrality of A to 3,
outside [0,1]. -/
theorem degree_centrality_selfloop_counterexample :
    degree_centrality (build_graph [⟨"A", "A", (1:ℚ)/2⟩]) "A" = 1 ∧
    degree_centrality (build_graph [⟨"A", "A", (1:ℚ)/2⟩]) "A" ≠ 0 ∧
    ¬ degree_centrality (build_graph [⟨"A", "B", (1:ℚ)/2⟩, ⟨"A", "A", (1:ℚ)/2⟩]) "A" ≤ 1 := by
  have h1 : degree_centrality (build_graph [⟨"A", "A", (1:ℚ)/2⟩]) "A" = 1 := by
    unfold degree_centrality
    rw [if_pos (by decide), if_pos (by decide)]
  refine ⟨h1, by rw [h1]; decide, ?_⟩
  have hdeg : degree (build_graph [⟨"A", "B", (1:ℚ)/2⟩, ⟨"A", "A", (1:ℚ)/2⟩]) "A" = 3 := by
    decide
  have hlen : (build_graph [⟨"A", "B", (1:ℚ)/2⟩, ⟨"A", "A", (1:ℚ)/2⟩]).nodes.length = 2 := by
    decide
  unfold degree_centrality
  rw [hdeg, hlen]
  norm_num

/-- Claim C4, amended.  For every graph built from records with no
self-pairs, the degree centrality of every node lies in [0,1].  (With
self-loops the bound can fail, and a one-node graph — reachable only
via self-loops — gets value 1, not 0.) -/
theorem degree_centrality_bounds (rs : List Interaction)
    (h : rs.all (fun r => !(r.preferredName_A == r.preferredName_B)) = true)
    (v : String) (hv : v ∈ (build_graph rs).nodes) :
    0 ≤ degree_centrality (build_graph rs) v ∧ degree_centrality (build_graph rs) v ≤ 1 := by
  have hprop : ∀ r ∈ rs, r.preferredName_A ≠ r.preferredName_B := by
    intro r hr
    have := List.all_eq_true.1 h r hr
    simpa using this
  have hw := build_graph_wf rs
  have hnl := build_graph_noloops rs hprop
  have htwo := build_graph_twoNodes rs hprop
  unfold degree_centrality
  split
  · next hle =>
    exfalso
    rcases htwo with hnil | ⟨x, y, hxy, hx, hy⟩
    · rw [hnil] at hv
      cases hv
    · have := two_le_length_of_two_mem hw.nodup hxy hx hy
      omega
  · next hgt =>
    have hlen : 2 ≤ (build_graph rs).nodes.length := by omega
    have hpos : (0:ℚ) < (((build_graph rs).nodes.length - 1 : ℕ) : ℚ) := by
      have : 1 ≤ (build_graph rs).nodes.length - 1 := by omega
      exact_mod_cast Nat.lt_of_lt_of_le Nat.zero_lt_one this
    constructor
    · exact div_nonneg (Nat.cast_nonneg _) (le_of_lt hpos)
    · rw [div_le_one hpos]
      exact_mod_cast degree_le_card hw hnl hv

/-- Claim C4, witness for the amended theorem. -/
theorem degree_centrality_bounds_witness :
    ([⟨"A", "B", (1:ℚ)/2⟩, ⟨"B", "C", (1:ℚ)/2⟩] : List Interaction).all
        (fun r => !(r.preferredName_A == r.preferredName_B)) = true ∧
    "B" ∈ (build_graph [⟨"A", "B", (1:ℚ)/2⟩, ⟨"B", "C", (1:ℚ)/2⟩]).nodes ∧
    0 ≤ degree_centrality (build_graph [⟨"A", "B", (1:ℚ)/2⟩, ⟨"B", "C", (1:ℚ)/2⟩]) "B" ∧
    degree_centrality (build_graph [⟨"A", "B", (1:ℚ)/2⟩, ⟨"B", "C", (1:ℚ)/2⟩]) "B" ≤ 1 :=
  ⟨by decide, by decide,
   (degree_centrality_bounds _ (by decide) "B" (by decide)).1,
   (degree_centrality_bounds _ (by decide) "B" (by decide)).2⟩

/-- Claim C5.  Whenever the classifier returns at least one category
name not already in the cache, `enrich_missing_genes` returns exactly
the review payload — the new category names plus the full list of
newly classified (symbol, category, description) tuples — with the
database unchanged, and the `/analyze` endpoint halts there with the
review response, performing no writes. -/
theorem review_required_halts_without_writes (gene_symbols : List String) (db : DB)
    (classify : String → GeneInfo)
    (h : new_categories gene_symbols db classify ≠ []) :
    enrich_missing_genes gene_symbols db classify =
      (some ⟨new_categories gene_symbols db classify,
             (gene_info_map gene_symbols db classify).map
               (fun p => ⟨p.1, p.2.category, p.2.description⟩)⟩,
       db, missing_symbols gene_symbols db) ∧
    ∀ (resp : Except Unit (List Interaction))
      (detect : Graph → Except Unit (List (List String))),
      (analyze_ppi_network gene_symbols db classify resp detect).response =
        Except.ok (.review_required (new_categories gene_symbols db classify)
          ((gene_info_map gene_symbols db classify).map
            (fun p => ⟨p.1, p.2.category, p.2.description⟩))) ∧
      (analyze_ppi_network gene_symbols db classify resp detect).db = db := by
  have he := enrich_review_branch gene_symbols db classify h
  refine ⟨he, ?_⟩
  intro resp detect
  unfold analyze_ppi_network
  rw [he]
  exact ⟨rfl, rfl⟩

/-- Claim C5, witness. -/
theorem review_required_halts_without_writes_witness :
    new_categories ["AAA"] ⟨[], []⟩ (fun _ => ⟨"desc", "Novel"⟩) ≠ [] ∧
    enrich_missing_genes ["AAA"] ⟨[], []⟩ (fun _ => ⟨"desc", "Novel"⟩) =
      (some ⟨new_categories ["AAA"] ⟨[], []⟩ (fun _ => ⟨"desc", "Novel"⟩),
             (gene_info_map ["AAA"] ⟨[], []⟩ (fun _ => ⟨"desc", "Novel"⟩)).map
               (fun p => ⟨p.1, p.2.category, p.2.description⟩)⟩,
       ⟨[], []⟩, missing_symbols ["AAA"] ⟨[], []⟩) :=
  ⟨by decide,
   (review_required_halts_without_writes ["AAA"] ⟨[], []⟩ (fun _ => ⟨"desc", "Novel"⟩)
      (by decide)).1⟩

/-- Claim C6.  The batch classifier path never propagates an error: a
missing API key, a network failure, malformed JSON or missing fields
all return the default `(description = "Gene <symbol> (auto-enrichment
pending)", category = "Unknown")`.  The extended-clinical-detail
variant instead surfaces every one of those failures to its caller as
an error (a missing key raises before the call is attempted). -/
theorem classifier_failure_contract :
    (∀ (s : String) (o : ApiOutcome), fetch_gene_info s none o = default_response s) ∧
    (∀ (s k : String) (o : ApiOutcome), o.isFail = true →
      fetch_gene_info s (some k) o = default_response s) ∧
    (∀ (s : String) (o : ExtOutcome),
      fetch_extended_details s none o = Except.error "GEMINI_API_KEY not found in environment") ∧
    (∀ (s k : String) (o : ExtOutcome), o.isFail = true →
      ∀ d : ExtendedDetails, fetch_extended_details s (some k) o ≠ Except.ok d) := by
  refine ⟨fun s o => rfl, ?_, fun s o => rfl, ?_⟩
  · intro s k o ho
    cases o with
    | networkError => rfl
    | malformedJson => rfl
    | missingFields => rfl
    | parsed d c => cases ho
  · intro s k o ho d
    cases o with
    | apiError => intro hc; cases hc
    | malformedJson => intro hc; cases hc
    | missingField => intro hc; cases hc
    | parsed x => cases ho

/-- Claim C6, witness. -/
theorem classifier_failure_contract_witness :
    ApiOutcome.networkError.isFail = true ∧
    fetch_gene_info "TP53" (some "key") ApiOutcome.networkError = default_response "TP53" ∧
    ExtOutcome.malformedJson.isFail = true ∧
    fetch_extended_details "TP53" (some "key") ExtOutcome.malformedJson ≠
      Except.ok ⟨"n", "f", "d", [], "High"⟩ :=
  ⟨rfl,
   classifier_failure_contract.2.1 "TP53" "key" ApiOutcome.networkError rfl,
   rfl,
   classifier_failure_contract.2.2.2 "TP53" "key" ExtOutcome.malformedJson rfl
     ⟨"n", "f", "d", [], "High"⟩⟩

/-- Claim C7.  For an empty interaction list `analyze_network` returns
the empty-but-valid result — 0 nodes, 0 edges, 0 modules, empty
top-hub and top-bottleneck lists — by the early return that precedes
every centrality and community computation, and in particular never
raises. -/
theorem empty_interactions_empty_result (genes_found genes_not_found : List String)
    (db : DB) (detect : Graph → Except Unit (List (List String))) :
    analyze_network [] genes_found genes_not_found db detect =
      { elements := []
        stats := { total_nodes := 0, total_edges := 0, top_hubs := [], top_bottlenecks := []
                   modules_detected := 0, genes_found := none, genes_not_found := none }
        genes_found := none
        genes_not_found := none } := rfl

/-- Claim C8, counterexample.  For the gene list [" "] — nonempty but
containing only a blank symbol — the `/analyze` pipeline runs
enrichment before the gene-list validation of
`fetch_string_interactions`: a classifier call is dispatched for " ",
and (with category "Unknown" already cached) a gene row for " " is
written, before the "No valid genes provided" error is reported.  The
claim's "no classifier calls, no rows written" fails. -/
theorem blank_gene_list_counterexample :
    (analyze_ppi_network [" "] ⟨[], [⟨1, "Unknown", "#808080"⟩]⟩ (fun s => default_response s)
        (Except.ok []) (fun _ => Except.error ())).response =
      Except.error "No valid genes provided" ∧
    (analyze_ppi_network [" "] ⟨[], [⟨1, "Unknown", "#808080"⟩]⟩ (fun s => default_response s)
        (Except.ok []) (fun _ => Except.error ())).classifier_calls = [" "] ∧
    (analyze_ppi_network [" "] ⟨[], [⟨1, "Unknown", "#808080"⟩]⟩ (fun s => default_response s)
        (Except.ok []) (fun _ => Except.error ())).db ≠ ⟨[], [⟨1, "Unknown", "#808080"⟩]⟩ := by
  refine ⟨rfl, rfl, ?_⟩
  intro hdb
  have : (analyze_ppi_network [" "] ⟨[], [⟨1, "Unknown", "#808080"⟩]⟩ (fun s => default_response s)
      (Except.ok []) (fun _ => Except.error ())).db.genes.length = 1 := rfl
  rw [hdb] at this
  cases this

/-- Claim C8, amended.  Only for the empty gene list does the pipeline
report the error with no partial work: the error is returned, no
classifier call is dispatched, and the database is unchanged.  (For
nonempty lists of blank symbols the error is still reported, but
enrichment runs first and may call the classifier and write rows, as
the counterexample shows.) -/
theorem empty_gene_list_no_partial_work (db : DB) (classify : String → GeneInfo)
    (resp : Except Unit (List Interaction))
    (detect : Graph → Except Unit (List (List String))) :
    analyze_ppi_network [] db classify resp detect =
      ⟨Except.error "No valid genes provided", db, []⟩ := rfl

/-- Claim C10.  The default classification carries category "Unknown",
so when some classifier call for a missing symbol has failed (putting
"Unknown" among the returned categories) and no category named
"Unknown" exists in the cache, `enrich_missing_genes` pauses the whole
request: it returns review data whose new-category list contains
"Unknown", and writes nothing. -/
theorem unknown_category_triggers_review (gene_symbols : List String) (db : DB)
    (classify : String → GeneInfo)
    (h1 : "Unknown" ∈ ai_categories gene_symbols db classify)
    (h2 : db.categories.all (fun c => !(c.name == "Unknown")) = true) :
    (∀ s, (default_response s).category = "Unknown") ∧
    "Unknown" ∈ new_categories gene_symbols db classify ∧
    (enrich_missing_genes gene_symbols db classify).1 =
      some ⟨new_categories gene_symbols db classify,
            (gene_info_map gene_symbols db classify).map
              (fun p => ⟨p.1, p.2.category, p.2.description⟩)⟩ ∧
    (enrich_missing_genes gene_symbols db classify).2.1 = db := by
  have hmem : "Unknown" ∈ new_categories gene_symbols db classify := by
    unfold new_categories
    rw [List.mem_filter]
    refine ⟨h1, ?_⟩
    have hnot : "Unknown" ∉ (get_categories_by_names db
        (ai_categories gene_symbols db classify)).map (fun c => c.name) := by
      intro hmemN
      obtain ⟨c, hc, hcn⟩ := List.mem_map.1 hmemN
      have hcdb : c ∈ db.categories := (List.mem_filter.1 hc).1
      have := List.all_eq_true.1 h2 c hcdb
      rw [Bool.not_eq_eq_eq_not, Bool.not_true, beq_eq_false_iff_ne] at this
      exact this hcn
    simpa using hnot
  have hne : new_categories gene_symbols db classify ≠ [] := by
    intro hnil
    rw [hnil] at hmem
    cases hmem
  have he := enrich_review_branch gene_symbols db classify hne
  refine ⟨fun s => rfl, hmem, ?_, ?_⟩
  · rw [he]
  · rw [he]

/-- Claim C10, witness. -/
theorem unknown_category_triggers_review_witness :
    "Unknown" ∈ ai_categories ["ZZZ9"] ⟨[], []⟩ (fun s => default_response s) ∧
    (([] : List CategoryRow).all (fun c => !(c.name == "Unknown")) = true) ∧
    "Unknown" ∈ new_categories ["ZZZ9"] ⟨[], []⟩ (fun s => default_response s) ∧
    (enrich_missing_genes ["ZZZ9"] ⟨[], []⟩ (fun s => default_response s)).2.1 = ⟨[], []⟩ :=
  ⟨by decide, rfl,
   (unknown_category_triggers_review ["ZZZ9"] ⟨[], []⟩ (fun s => default_response s)
      (by decide) rfl).2.1,
   (unknown_category_triggers_review ["ZZZ9"] ⟨[], []⟩ (fun s => default_response s)
      (by decide) rfl).2.2.2⟩

end ProtMap
